import Mathlib

/-!
Verification of the P_AndroidBrowserCustomTab plugin against its
natural-language specification.

The development shallowly embeds the plugin's logic:
  * the query-string-to-JSON codec of
    `Source/Android/Java/.../ChromeCustomTabs.java` (`queryStringToJson`,
    including the behaviour of `java.net.URLDecoder.decode(_, "UTF-8")` and
    of `String.split`),
  * the deep-link parameter extractors of `Source/CPP_ABCT_Base.cpp`
    (`GetDeepLinkParameter` and the float/int/vector variants, including a
    model of the engine's `FJsonSerializer` on the scalar-field JSON
    fragment this plugin produces and consumes, and of `FCString::Atof` /
    `FCString::Atoi` on decimal literals),
  * the session lifecycle state machine (`HandleNavigationEvent`,
    `OnCustomTabOpened`, `OnCustomTabClosed`, `CloseChromeCustomTab`) and
    the process-wide active-instance registry (`ChromeCustomTabsRegistry`),
  * the PostMessage channel-establishment retry loop of the Java side
    (`requestPostMessageChannel`, `attemptPostMessageChannelRequest`, the
    `Handler.postDelayed` retry callback and `onMessageChannelReady`),
    modelled as a transition system over an explicit state record with an
    output trace of transport calls, host notifications and error logs.

Strings are modelled as `List Char` (`Str` below); the JNI marshalling
between Java `String`, UTF-8 C strings and `FString` is value-preserving
and is therefore elided.
-/

namespace ABCT

/-- Strings of the modelled program (Java `String` / Unreal `FString`). -/
abbrev Str := List Char

-- ===========================================================================
-- java.net.URLDecoder.decode(s, "UTF-8")
-- ===========================================================================

/-- Value of a hexadecimal digit, as accepted by `Character.digit(c, 16)`
inside `URLDecoder.decode`; `none` for a non-hex-digit character. -/
def hexVal (c : Char) : Option Nat :=
  if '0' ≤ c ∧ c ≤ '9' then some (c.toNat - '0'.toNat)
  else if 'a' ≤ c ∧ c ≤ 'f' then some (c.toNat - 'a'.toNat + 10)
  else if 'A' ≤ c ∧ c ≤ 'F' then some (c.toNat - 'A'.toNat + 10)
  else none

/-- First pass of `URLDecoder.decode`: `+` becomes a space, `%HH` becomes
the byte `HH` (tagged `Sum.inr`), every other character is kept (tagged
`Sum.inl`).  A `%` not followed by two hex digits makes
`URLDecoder.decode` throw `IllegalArgumentException`, modelled by `none`. -/
def urlDecodeGo : Str → Option (List (Char ⊕ Nat))
  | [] => some []
  | '+' :: rest => (urlDecodeGo rest).map (fun l => Sum.inl ' ' :: l)
  | '%' :: a :: b :: rest =>
    match hexVal a, hexVal b with
    | some ha, some hb => (urlDecodeGo rest).map (fun l => Sum.inr (ha * 16 + hb) :: l)
    | _, _ => none
  | '%' :: _ => none
  | c :: rest => (urlDecodeGo rest).map (fun l => Sum.inl c :: l)

/-- The Unicode replacement character U+FFFD, produced by `new String(bytes,
"UTF-8")` for malformed byte sequences. -/
def replChar : Char := Char.ofNat 0xFFFD

/-- UTF-8 decoding of a byte run, as performed by `new String(bytes, "UTF-8")`
inside `URLDecoder.decode`.  Valid sequences decode exactly; malformed
sequences yield U+FFFD replacement characters (the exact number of
replacement characters Java emits per malformed sequence is approximated;
no theorem below evaluates this function on malformed input).  `fuel` is a
structural-recursion bound only: every step consumes at least one byte, so
`utf8DecodeRepl` supplies the byte count and the `fuel = 0` case is
unreachable. -/
def utf8DecodeReplF : Nat → List Nat → List Char
  | 0, _ => []
  | _, [] => []
  | fuel + 1, b :: rest =>
    if b < 0x80 then Char.ofNat b :: utf8DecodeReplF fuel rest
    else if 0xC2 ≤ b ∧ b ≤ 0xDF then
      match rest with
      | b2 :: rest2 =>
        if 0x80 ≤ b2 ∧ b2 ≤ 0xBF then
          Char.ofNat ((b - 0xC0) * 64 + (b2 - 0x80)) :: utf8DecodeReplF fuel rest2
        else replChar :: utf8DecodeReplF fuel (b2 :: rest2)
      | [] => [replChar]
    else if 0xE0 ≤ b ∧ b ≤ 0xEF then
      match rest with
      | b2 :: b3 :: rest3 =>
        if (if b = 0xE0 then 0xA0 ≤ b2 ∧ b2 ≤ 0xBF
            else if b = 0xED then 0x80 ≤ b2 ∧ b2 ≤ 0x9F
            else 0x80 ≤ b2 ∧ b2 ≤ 0xBF) ∧ 0x80 ≤ b3 ∧ b3 ≤ 0xBF then
          Char.ofNat ((b - 0xE0) * 4096 + (b2 - 0x80) * 64 + (b3 - 0x80))
            :: utf8DecodeReplF fuel rest3
        else replChar :: utf8DecodeReplF fuel (b2 :: b3 :: rest3)
      | _ => [replChar]
    else if 0xF0 ≤ b ∧ b ≤ 0xF4 then
      match rest with
      | b2 :: b3 :: b4 :: rest4 =>
        if (if b = 0xF0 then 0x90 ≤ b2 ∧ b2 ≤ 0xBF
            else if b = 0xF4 then 0x80 ≤ b2 ∧ b2 ≤ 0x8F
            else 0x80 ≤ b2 ∧ b2 ≤ 0xBF) ∧ 0x80 ≤ b3 ∧ b3 ≤ 0xBF ∧ 0x80 ≤ b4 ∧ b4 ≤ 0xBF then
          Char.ofNat ((b - 0xF0) * 262144 + (b2 - 0x80) * 4096 + (b3 - 0x80) * 64 + (b4 - 0x80))
            :: utf8DecodeReplF fuel rest4
        else replChar :: utf8DecodeReplF fuel (b2 :: b3 :: b4 :: rest4)
      | _ => [replChar]
    else replChar :: utf8DecodeReplF fuel rest

/-- UTF-8 decoding of a complete byte run (see `utf8DecodeReplF`). -/
def utf8DecodeRepl (bs : List Nat) : List Char :=
  utf8DecodeReplF bs.length bs

/-- Second pass of `URLDecoder.decode`: maximal runs of consecutive decoded
bytes are UTF-8-decoded together (Java collects consecutive `%HH` escapes
into one byte array before converting); plain characters pass through.
`pending` accumulates the current byte run in reverse. -/
def decodeTokens : List (Char ⊕ Nat) → List Nat → Str
  | [], pending => utf8DecodeRepl pending.reverse
  | Sum.inl c :: rest, pending => utf8DecodeRepl pending.reverse ++ c :: decodeTokens rest []
  | Sum.inr b :: rest, pending => decodeTokens rest (b :: pending)

/-- Model of `java.net.URLDecoder.decode(s, "UTF-8")`: `none` when the call
throws `IllegalArgumentException` (a `%` not followed by two hex digits). -/
def urlDecodeJava (s : Str) : Option Str :=
  (urlDecodeGo s).map (fun toks => decodeTokens toks [])

-- ===========================================================================
-- ChromeCustomTabs.queryStringToJson (ChromeCustomTabs.java, lines 426-453)
-- ===========================================================================

/-- Removal of trailing empty segments, as performed by Java
`String.split(regex)` (zero-limit split). -/
def dropTrailingEmpties : List Str → List Str
  | [] => []
  | s :: rest =>
    match dropTrailingEmpties rest with
    | [] => if s = [] then [] else [s]
    | r :: rs => s :: r :: rs

/-- Model of Java `s.split(sep-char)` (zero limit): split on every occurrence
of the separator, then remove trailing empty segments; an empty input yields
a single empty segment. -/
def javaSplit (sep : Char) (s : Str) : List Str :=
  if s = [] then [[]] else dropTrailingEmpties (s.splitOn sep)

/-- Model of Java `pair.split("=", 2)`, reduced to its two outcomes: `none`
when the pair contains no `=` (the resulting array has length 1 and the
entry is skipped), `some (key, value)` when it splits at the first `=`
(limit 2 keeps any further `=` inside the value; no trailing-empty removal
happens with a positive limit, so an empty value is kept). -/
def splitFirstEq : Str → Option (Str × Str)
  | [] => none
  | c :: cs =>
    if c = '=' then some ([], cs)
    else (splitFirstEq cs).map (fun p => (c :: p.1, p.2))

/-- The text `"key":"decodedValue"` appended by `queryStringToJson` for one
kept pair (the key is embedded raw, the value percent-decoded; neither is
JSON-escaped). -/
def entryStr (k d : Str) : Str :=
  '"' :: k ++ '"' :: ':' :: '"' :: d ++ ['"']

/-- The indexed loop body of `queryStringToJson`: `i` is the position of the
current pair in the split array; a comma is appended whenever `i > 0` and
the pair is kept, regardless of whether earlier pairs were kept.  The value
is percent-decoded; the `try`/`catch` around `URLDecoder.decode` catches
only `UnsupportedEncodingException` (which cannot occur for UTF-8), so an
`IllegalArgumentException` from a malformed escape propagates (`none`). -/
def qsjLoop : List Str → Nat → Option Str
  | [], _ => some []
  | p :: rest, i =>
    match splitFirstEq p with
    | none => qsjLoop rest (i + 1)
    | some (k, v) =>
      match urlDecodeJava v with
      | none => none
      | some d =>
        match qsjLoop rest (i + 1) with
        | none => none
        | some restJson => some ((if 0 < i then [','] else []) ++ entryStr k d ++ restJson)

/-- Model of `ChromeCustomTabs.queryStringToJson` (a `null` query behaves
like the empty one): split the query on `&`, split each pair on the first
`=`, skip pairs without `=`, percent-decode values, and assemble a JSON
object literal by naive string concatenation.  `none` models a propagated
`IllegalArgumentException` from `URLDecoder.decode`. -/
def queryStringToJson (query : Str) : Option Str :=
  if query = [] then some ('{' :: ['}'])
  else
    match qsjLoop (javaSplit '&' query) 0 with
    | none => none
    | some body => some ('{' :: body ++ ['}'])

-- ===========================================================================
-- Model of the engine JSON library (FJsonSerializer / TJsonReader /
-- FJsonObject), restricted to the fragment this plugin exchanges:
-- a single flat object whose values are strings, numbers, booleans or null.
-- (The engine parser also accepts nested containers; the plugin neither
-- produces nor consumes them and no theorem below depends on them.)
-- ===========================================================================

/-- JSON scalar values as stored in a parsed `FJsonObject`. -/
inductive JsonVal where
  | jstr (s : Str)
  | jnum (raw : Str)
  | jbool (b : Bool)
  | jnull
deriving DecidableEq

/-- JSON whitespace accepted between tokens by `TJsonReader`. -/
def isWsChar (c : Char) : Bool :=
  c == ' ' || c == '\t' || c == '\n' || c == '\r'

/-- Skip JSON whitespace. -/
def skipWs (s : Str) : Str := s.dropWhile isWsChar

/-- Map a JSON escape character to the character it denotes (`TJsonReader`
rejects unknown escapes). -/
def unescapeChar (e : Char) : Option Char :=
  if e = '"' then some '"'
  else if e = '\\' then some '\\'
  else if e = '/' then some '/'
  else if e = 'b' then some (Char.ofNat 8)
  else if e = 'f' then some (Char.ofNat 12)
  else if e = 'n' then some '\n'
  else if e = 'r' then some '\r'
  else if e = 't' then some '\t'
  else none

/-- Parse the body of a JSON string after its opening quote: returns the
decoded contents and the input after the closing quote.  `\uXXXX` escapes
become the UTF-16 code unit `XXXX` (an unpaired surrogate degrades, which
the engine reader tolerates; no theorem below exercises escapes). -/
def parseStringBody : Str → Option (Str × Str)
  | [] => none
  | c :: rest =>
    if c = '"' then some ([], rest)
    else if c = '\\' then
      match rest with
      | [] => none
      | e :: rest2 =>
        if e = 'u' then
          match rest2 with
          | a :: b :: c2 :: d :: rest3 =>
            match hexVal a, hexVal b, hexVal c2, hexVal d with
            | some ha, some hb, some hc, some hd =>
              match parseStringBody rest3 with
              | some (s, r) => some (Char.ofNat (((ha * 16 + hb) * 16 + hc) * 16 + hd) :: s, r)
              | none => none
            | _, _, _, _ => none
          | _ => none
        else
          match unescapeChar e with
          | some ec =>
            match parseStringBody rest2 with
            | some (s, r) => some (ec :: s, r)
            | none => none
          | none => none
    else
      match parseStringBody rest with
      | some (s, r) => some (c :: s, r)
      | none => none

/-- Characters the engine number tokenizer consumes greedily. -/
def numLitChars (c : Char) : Bool :=
  c.isDigit || c == '.' || c == '-' || c == '+' || c == 'e' || c == 'E'

/-- Consume one or more decimal digits; `none` if there is none. -/
def digitsThen (s : Str) : Option Str :=
  let d := s.takeWhile Char.isDigit
  if d.isEmpty then none else some (s.dropWhile Char.isDigit)

/-- Validate the optional exponent part of a JSON numeral (then end). -/
def expPartOk : Str → Bool
  | [] => true
  | c :: rest =>
    if c = 'e' ∨ c = 'E' then
      let rest2 := if rest.head? = some '-' ∨ rest.head? = some '+' then rest.tail else rest
      match digitsThen rest2 with
      | some [] => true
      | _ => false
    else false

/-- Validate the optional fraction part of a JSON numeral, then the
exponent part. -/
def fracPartOk : Str → Bool
  | [] => true
  | c :: rest =>
    if c = '.' then
      match digitsThen rest with
      | some r => expPartOk r
      | none => false
    else expPartOk (c :: rest)

/-- Validate a complete numeric token (optional minus, integer digits,
optional fraction, optional exponent). -/
def isNumLit (s : Str) : Bool :=
  let s2 := if s.head? = some '-' then s.tail else s
  match digitsThen s2 with
  | some r => fracPartOk r
  | none => false

/-- Parse one scalar JSON value (string, number, boolean or null). -/
def parseScalar : Str → Option (JsonVal × Str)
  | [] => none
  | c :: rest =>
    if c = '"' then
      match parseStringBody rest with
      | some (s, r) => some (JsonVal.jstr s, r)
      | none => none
    else if c = 't' then
      match rest with
      | 'r' :: 'u' :: 'e' :: r => some (JsonVal.jbool true, r)
      | _ => none
    else if c = 'f' then
      match rest with
      | 'a' :: 'l' :: 's' :: 'e' :: r => some (JsonVal.jbool false, r)
      | _ => none
    else if c = 'n' then
      match rest with
      | 'u' :: 'l' :: 'l' :: r => some (JsonVal.jnull, r)
      | _ => none
    else
      let tok := (c :: rest).takeWhile numLitChars
      let r := (c :: rest).dropWhile numLitChars
      if !tok.isEmpty && isNumLit tok then some (JsonVal.jnum tok, r) else none

/-- Parse the members of a JSON object after at least one member is known to
follow: `"key" : value` then `,` (more members) or `}` (done).  `fuel`
bounds the recursion; every call consumes at least one member, so any fuel
larger than the member count suffices. -/
def parsePairsAux : Nat → Str → Option (List (Str × JsonVal) × Str)
  | 0, _ => none
  | fuel + 1, s =>
    match skipWs s with
    | [] => none
    | c :: rest =>
      if c = '"' then
        match parseStringBody rest with
        | none => none
        | some (k, r1) =>
          match skipWs r1 with
          | [] => none
          | c2 :: r3 =>
            if c2 = ':' then
              match parseScalar (skipWs r3) with
              | none => none
              | some (v, r4) =>
                match skipWs r4 with
                | [] => none
                | c3 :: r6 =>
                  if c3 = ',' then
                    match parsePairsAux fuel r6 with
                    | some (ms, r7) => some ((k, v) :: ms, r7)
                    | none => none
                  else if c3 = '}' then some ([(k, v)], r6)
                  else none
            else none
      else none

/-- Model of `FJsonSerializer::Deserialize` into a `FJsonObject`: the input
must be a single object (with only whitespace around it); members are
returned in textual order. -/
def jsonParseObject (s : Str) : Option (List (Str × JsonVal)) :=
  match skipWs s with
  | [] => none
  | c :: rest =>
    if c = '{' then
      match skipWs rest with
      | [] => none
      | c2 :: rest2 =>
        if c2 = '}' then
          if skipWs rest2 = [] then some [] else none
        else
          match parsePairsAux ((skipWs rest).length + 1) (skipWs rest) with
          | some (ms, r) => if skipWs r = [] then some ms else none
          | none => none
    else none

/-- Per-character lowercasing as performed by the engine's
`TChar::ToLower` (ASCII `A`-`Z` only), which underlies case-insensitive
`FString` comparison (`operator==` uses `ESearchCase::IgnoreCase`). -/
def ueToLower (c : Char) : Char :=
  if 'A' ≤ c ∧ c ≤ 'Z' then Char.ofNat (c.toNat + 32) else c

/-- Case-folded form of a string, so that two `FString`s are equal under
the engine's case-insensitive comparison iff their folded forms are
equal. -/
def foldCase (s : Str) : Str := s.map ueToLower

/-- Field lookup in a parsed object (`FJsonObject::HasField` /
`TryGetField`): the backing `TMap<FString, ...>` hashes with `Strihash`
and compares keys with `FString::operator==`, which ignores ASCII case,
so lookup matches keys case-insensitively; the map is filled with
`SetField`, which replaces an existing (case-insensitively equal) entry,
so a duplicated key resolves to its last occurrence. -/
def getField (ms : List (Str × JsonVal)) (k : Str) : Option JsonVal :=
  ms.foldl (fun acc kv => if foldCase kv.1 = foldCase k then some kv.2 else acc) none

/-- `FJsonValue::TryGetString` as used by `FJsonObject::GetStringField`:
strings are returned as-is, booleans render `true`/`false`, null has no
string form and `GetStringField` falls back to the empty string.  For a
number the engine renders the parsed `double`; the model keeps the raw
literal (identical for the integral literals that occur in practice; no
theorem below extracts a number-typed field). -/
def jsonValAsString : JsonVal → Str
  | JsonVal.jstr s => s
  | JsonVal.jnum raw => raw
  | JsonVal.jbool true => ['t', 'r', 'u', 'e']
  | JsonVal.jbool false => ['f', 'a', 'l', 's', 'e']
  | JsonVal.jnull => []

-- ===========================================================================
-- UCPP_ABCT_Base deep-link parameter extraction (CPP_ABCT_Base.cpp 230-303)
-- ===========================================================================

/-- Model of `UCPP_ABCT_Base::GetDeepLinkParameter`: empty inputs are
rejected, the JSON is parsed, and the field is extracted as a string;
`none` covers both parse failure and a missing key (the C++ returns
`false` and leaves `OutValue` untouched in both cases). -/
def getDeepLinkParameter (paramsJson key : Str) : Option Str :=
  if paramsJson = [] ∨ key = [] then none
  else
    match jsonParseObject paramsJson with
    | none => none
    | some ms =>
      match getField ms key with
      | none => none
      | some v => some (jsonValAsString v)

/-- Whitespace skipped by `atof` / `atoi` (C `isspace`). -/
def isSpaceC (c : Char) : Bool :=
  c == ' ' || c == '\t' || c == '\n' || c == '\r' || c == Char.ofNat 11 || c == Char.ofNat 12

/-- Numeric value of a digit string. -/
def natOfDigits (s : Str) : Nat :=
  s.foldl (fun a c => a * 10 + (c.toNat - '0'.toNat)) 0

/-- Model of `FCString::Atof` (C `atof`/`strtod`) on decimal literals:
optional whitespace, optional sign, digits with optional fraction and
exponent; `0` when no conversion is possible (hex floats, infinities and
NaNs are not modelled; results are exact rationals rather than rounded
doubles, which no theorem below distinguishes). -/
def atofModel (s : Str) : Rat :=
  let s1 := s.dropWhile isSpaceC
  let neg := s1.head? = some '-'
  let s2 := if s1.head? = some '-' ∨ s1.head? = some '+' then s1.tail else s1
  let ip := s2.takeWhile Char.isDigit
  let s3 := s2.dropWhile Char.isDigit
  let fp := if s3.head? = some '.' then s3.tail.takeWhile Char.isDigit else []
  let s4 := if s3.head? = some '.' then s3.tail.dropWhile Char.isDigit else s3
  if ip.isEmpty && fp.isEmpty then 0
  else
    let mant : Rat := (natOfDigits ip : Rat) + (natOfDigits fp : Rat) / ((10 : Rat) ^ fp.length)
    let ex : Int :=
      match s4 with
      | [] => 0
      | c :: rest =>
        if c = 'e' ∨ c = 'E' then
          let esgn : Int := if rest.head? = some '-' then -1 else 1
          let rest2 := if rest.head? = some '-' ∨ rest.head? = some '+' then rest.tail else rest
          let ed := rest2.takeWhile Char.isDigit
          if ed.isEmpty then 0 else esgn * (natOfDigits ed : Int)
        else 0
    let scaled := if 0 ≤ ex then mant * (10 : Rat) ^ ex.toNat else mant / ((10 : Rat) ^ (-ex).toNat)
    if neg then -scaled else scaled

/-- Model of `FCString::Atoi` (C `atoi`): optional whitespace, optional
sign, leading digits; `0` when no digits are present (overflow of the
32-bit result is not modelled; no theorem below reaches it). -/
def atoiModel (s : Str) : Int :=
  let s1 := s.dropWhile isSpaceC
  let s2 := if s1.head? = some '-' ∨ s1.head? = some '+' then s1.tail else s1
  let v : Int := natOfDigits (s2.takeWhile Char.isDigit)
  if s1.head? = some '-' then -v else v

/-- Model of `UCPP_ABCT_Base::GetDeepLinkParameterAsFloat`: `some v` models
`return true` with `OutValue = FCString::Atof(*StringValue)`; `none`
models `return false` (with `OutValue` untouched).  Note the C++ returns
`true` whenever the key is found, whatever the string contains. -/
def getDeepLinkParameterAsFloat (paramsJson key : Str) : Option Rat :=
  (getDeepLinkParameter paramsJson key).map atofModel

/-- Model of `UCPP_ABCT_Base::GetDeepLinkParameterAsInt`, in the same way. -/
def getDeepLinkParameterAsInt (paramsJson key : Str) : Option Int :=
  (getDeepLinkParameter paramsJson key).map atoiModel

/-- Model of `UCPP_ABCT_Base::GetDeepLinkParameterAsVector`: extracts the
`x`, `y`, `z` fields as floats and reports a vector only when all three
extractions report success. -/
def getDeepLinkParameterAsVector (paramsJson : Str) : Option (Rat × Rat × Rat) :=
  match getDeepLinkParameterAsFloat paramsJson ['x'],
        getDeepLinkParameterAsFloat paramsJson ['y'],
        getDeepLinkParameterAsFloat paramsJson ['z'] with
  | some x, some y, some z => some (x, y, z)
  | _, _, _ => none

-- ===========================================================================
-- ChromeCustomTabsRegistry (CPP_ABCT_Base.cpp, lines 19-40)
-- ===========================================================================

/-- Model of `ChromeCustomTabsRegistry::RegisterActiveInstance`: the global
`TWeakObjectPtr` is assigned the new instance, unconditionally replacing
any previous registration.  Instances are identified by a `Nat`. -/
def registerActiveInstance (_prev : Option Nat) (inst : Nat) : Option Nat :=
  some inst

/-- Model of `ChromeCustomTabsRegistry::UnregisterActiveInstance`: the
global pointer is cleared unconditionally. -/
def unregisterActiveInstance (_prev : Option Nat) : Option Nat :=
  none

/-- Model of `ChromeCustomTabsRegistry::GetActiveInstance`: the weak pointer
is returned only while its referent is still alive (`IsValid`), else
`nullptr`. -/
def getActiveInstance (alive : Nat → Bool) (reg : Option Nat) : Option Nat :=
  match reg with
  | some i => if alive i then some i else none
  | none => none

-- ===========================================================================
-- UCPP_ABCT_Base session lifecycle (CPP_ABCT_Base.cpp 185-208, 317-339)
-- ===========================================================================

/-- The instance state touched by the lifecycle handlers, together with the
global registry slot (configuration fields are never written by the
modelled operations and are omitted). -/
structure GState where
  bIsCustomTabOpen : Bool
  currentURL : Str
  lastNavigationEvent : Str
  registry : Option Nat
deriving DecidableEq

/-- Model of `UCPP_ABCT_Base::OnCustomTabOpened`: mark the tab open, record
the URL, register this instance (`selfId`) as the active one. -/
def onCustomTabOpened (selfId : Nat) (st : GState) (url : Str) : GState :=
  { st with
    bIsCustomTabOpen := true
    currentURL := url
    registry := registerActiveInstance st.registry selfId }

/-- Model of `UCPP_ABCT_Base::OnCustomTabClosed`: mark the tab closed, clear
the URL, unregister the active instance. -/
def onCustomTabClosed (st : GState) : GState :=
  { st with
    bIsCustomTabOpen := false
    currentURL := []
    registry := unregisterActiveInstance st.registry }

/-- Model of `UCPP_ABCT_Base::HandleNavigationEvent`: record the event,
record a non-empty URL, then dispatch: only the literal event strings
`"TabClosed"` and `"NavigationStarted"` (the latter only while the tab is
not open) change the open/closed state.  The final Blueprint broadcast
(`OnNavigationEvent`) does not touch the modelled state. -/
def handleNavigationEvent (selfId : Nat) (st : GState) (event url : Str) : GState :=
  let stA := { st with lastNavigationEvent := event }
  let stB := if url = [] then stA else { stA with currentURL := url }
  if event = ['T', 'a', 'b', 'C', 'l', 'o', 's', 'e', 'd'] then onCustomTabClosed stB
  else if event = ['N', 'a', 'v', 'i', 'g', 'a', 't', 'i', 'o', 'n', 'S', 't', 'a', 'r', 't', 'e', 'd']
      ∧ stB.bIsCustomTabOpen = false then
    onCustomTabOpened selfId stB url
  else stB

/-- Outcome of the JNI plumbing inside `UCPP_ABCT_Base::CloseChromeCustomTab`:
which of its guard branches is taken. -/
inductive CloseOutcome where
  | noJavaEnv
  | classNotFound
  | methodNotFound
  | invoked
  | notAndroid
deriving DecidableEq

/-- Model of `UCPP_ABCT_Base::CloseChromeCustomTab`: `OnCustomTabClosed` runs
only on the branch where the `closeTab` method was found and invoked;
every failure branch (and the non-Android build) only logs. -/
def closeChromeCustomTab (outcome : CloseOutcome) (st : GState) : GState :=
  match outcome with
  | CloseOutcome.invoked => onCustomTabClosed st
  | _ => st

-- ===========================================================================
-- PostMessage channel-establishment retry loop
-- (ChromeCustomTabs.java, lines 82-88 and 199-256)
-- ===========================================================================

/-- The static fields of `ChromeCustomTabs` driving the retry loop.
`sessionAvailable` models `customTabsSession != null` (after
`ensureSession`); `scheduledRetries` counts retry callbacks currently
sitting in the `Handler` queue. -/
structure RetryState where
  sessionAvailable : Bool
  messageChannelReady : Bool
  pendingOrigin : Option Str
  pendingRetryOrigin : Option Str
  postMessageRetryCount : Nat
  scheduledRetries : Nat
deriving DecidableEq

/-- `MAX_POSTMESSAGE_RETRIES`. -/
def maxPostMessageRetries : Nat := 5

/-- Observable actions of the Java retry code: a call to the transport
primitive `customTabsSession.requestPostMessageChannel(origin)`, the JNI
host notification `nativeOnMessageChannelReady`, and the `Log.e` emitted
on retry exhaustion. -/
inductive JOut where
  | transportAttempt (origin : Str)
  | notifyChannelReady
  | logExhausted
deriving DecidableEq

/-- Model of `attemptPostMessageChannelRequest(activity, origin)`.  The
transport's immediate boolean reply is supplied as `transportResult`.
On rejection with attempts left, a retry callback is scheduled
(`Handler.postDelayed`); on the fifth rejection only `Log.e` runs and
`pendingRetryOrigin` is cleared; on acceptance `pendingRetryOrigin` is
cleared (readiness still waits for `onMessageChannelReady`). -/
def attemptPMCR (st : RetryState) (origin : Str) (transportResult : Bool) :
    RetryState × List JOut :=
  if st.sessionAvailable = false then (st, [])
  else
    let st1 := { st with postMessageRetryCount := st.postMessageRetryCount + 1 }
    if transportResult = false then
      if st1.postMessageRetryCount < maxPostMessageRetries then
        ({ st1 with scheduledRetries := st1.scheduledRetries + 1 },
         [JOut.transportAttempt origin])
      else
        ({ st1 with pendingRetryOrigin := none },
         [JOut.transportAttempt origin, JOut.logExhausted])
    else
      ({ st1 with pendingRetryOrigin := none }, [JOut.transportAttempt origin])

/-- Model of one scheduled retry callback firing (the lambda passed to
`retryHandler.postDelayed`): it re-reads the *current* static fields — it
acts only if the channel is still not ready and some origin is still
pending, and it passes the current `pendingRetryOrigin`, not the origin of
the request that scheduled it. -/
def retryFires (st : RetryState) (transportResult : Bool) : RetryState × List JOut :=
  let st0 := { st with scheduledRetries := st.scheduledRetries - 1 }
  if st0.messageChannelReady = false then
    match st0.pendingRetryOrigin with
    | some o => attemptPMCR st0 o transportResult
    | none => (st0, [])
  else (st0, [])

/-- Model of `requestPostMessageChannel(activity, origin)`: rejects an empty
origin or a missing session, otherwise resets the retry state for the new
origin and issues the first attempt (posted to the UI thread; the hop is
order-preserving and modelled as immediate). -/
def requestPostMessageChannelM (st : RetryState) (origin : Str) (transportResult : Bool) :
    Bool × RetryState × List JOut :=
  if origin = [] then (false, st, [])
  else if st.sessionAvailable = false then (false, st, [])
  else
    let st1 := { st with
      pendingOrigin := some origin
      pendingRetryOrigin := some origin
      messageChannelReady := false
      postMessageRetryCount := 0 }
    let r := attemptPMCR st1 origin transportResult
    (true, r.1, r.2)

/-- Model of `CustomTabsCallback.onMessageChannelReady`: set the ready flag,
clear `pendingRetryOrigin` (stopping any pending retries), notify the
native side. -/
def onMessageChannelReadyM (st : RetryState) : RetryState × List JOut :=
  ({ st with messageChannelReady := true, pendingRetryOrigin := none },
   [JOut.notifyChannelReady])

/-- Run `n` scheduled retry callbacks in sequence, the transport rejecting
each attempt (test-harness composition, not source code). -/
def fireN (st : RetryState) : Nat → RetryState × List JOut
  | 0 => (st, [])
  | n + 1 =>
    let r1 := retryFires st false
    let r2 := fireN r1.1 n
    (r2.1, r1.2 ++ r2.2)

/-- A fresh `requestPostMessageChannel` whose first attempt and four
scheduled retries are all rejected by the transport (test-harness
composition, not source code). -/
def exhaustRun (st : RetryState) (origin : Str) : RetryState × List JOut :=
  let r1 := requestPostMessageChannelM st origin false
  let r2 := fireN r1.2.1 4
  (r2.1, r1.2.2 ++ r2.2)

/-- Outputs that cross the JNI boundary to the host observer. -/
def isHostNotification : JOut → Bool
  | JOut.notifyChannelReady => true
  | _ => false

/-- The host-directed outputs of a trace. -/
def hostNotifs (outs : List JOut) : List JOut :=
  outs.filter isHostNotification

/-- The number of transport attempts in a trace. -/
def countAttempts (outs : List JOut) : Nat :=
  (outs.filter (fun o => match o with
    | JOut.transportAttempt _ => true
    | _ => false)).length

-- ===========================================================================
-- Theorems
-- ===========================================================================

/-- C2: the stated examples hold (`queryStringToJson` maps the empty query
to `{}` and `a=1&b=2` to the two-field object in order), but the claim that
the output is always a well-formed JSON object of the kept pairs fails:
for the query `x&b=2` the malformed entry `x` at index 0 is dropped while
the kept entry at index 1 still triggers the `i > 0` comma, producing the
invalid literal `{,"b":"2"}`, which the deserializer rejects, so the kept
field `b` is unrecoverable. -/
theorem queryJsonCommaBug :
    queryStringToJson ("".toList) = some ("\x7b\x7d".toList)
    ∧ queryStringToJson ("a=1&b=2".toList) = some ("\x7b\"a\":\"1\",\"b\":\"2\"\x7d".toList)
    ∧ queryStringToJson ("x&b=2".toList) = some ("\x7b,\"b\":\"2\"\x7d".toList)
    ∧ jsonParseObject ("\x7b,\"b\":\"2\"\x7d".toList) = none
    ∧ getDeepLinkParameter ("\x7b,\"b\":\"2\"\x7d".toList) ("b".toList) = none := by
  refine ⟨?_, ?_, ?_, ?_, ?_⟩ <;> decide

/-- C4: `HandleNavigationEvent` has no branch for the event string
`"TabOpened"` (only `"TabClosed"` and `"NavigationStarted"` are matched),
so a `TabOpened` event delivered to a closed session leaves
`bIsCustomTabOpen = false` and `CurrentURL` unchanged (the JNI layer sends
it with an empty URL), contrary to the claim; the `NavigationStarted` half
of the claim does hold. -/
theorem tabOpenedIgnoredBug :
    handleNavigationEvent 0 ⟨false, ['o'], [], none⟩ ("TabOpened".toList) []
      = ⟨false, ['o'], ("TabOpened".toList), none⟩
    ∧ (handleNavigationEvent 0 ⟨false, [], [], none⟩
        ("NavigationStarted".toList) ("https://x".toList)).bIsCustomTabOpen = true
    ∧ (handleNavigationEvent 0 ⟨false, [], [], none⟩
        ("NavigationStarted".toList) ("https://x".toList)).currentURL
        = ("https://x".toList) := by
  refine ⟨?_, ?_, ?_⟩ <;> decide

/-- C5: registering instance `a` then instance `b` makes the registry
return `b` (while `b` is alive) and never `a`; unregistering always yields
`none` and is idempotent; registration replaces the previous registration
unconditionally (the result does not depend on the prior contents). -/
theorem registrySemantics (reg : Option Nat) (a b : Nat) (alive : Nat → Bool)
    (hab : a ≠ b) :
    (alive b = true →
      getActiveInstance alive (registerActiveInstance (registerActiveInstance reg a) b) = some b)
    ∧ getActiveInstance alive (registerActiveInstance (registerActiveInstance reg a) b) ≠ some a
    ∧ (∀ r, getActiveInstance alive (unregisterActiveInstance r) = none)
    ∧ (∀ r, unregisterActiveInstance (unregisterActiveInstance r) = unregisterActiveInstance r)
    ∧ (∀ r r2, registerActiveInstance r b = registerActiveInstance r2 b) := by
  refine ⟨?_, ?_, ?_, ?_, ?_⟩
  · intro hb
    simp [getActiveInstance, registerActiveInstance, hb]
  · simp only [getActiveInstance, registerActiveInstance]
    split_ifs with h
    · simp
      exact fun hba => hab hba.symm
    · simp
  · intro r
    simp [getActiveInstance, unregisterActiveInstance]
  · intro r
    simp [unregisterActiveInstance]
  · intro r r2
    simp [registerActiveInstance]

/-- C5 witness: the registry theorem applied to instances 0 and 1 with
every instance alive. -/
theorem registrySemanticsWitness :
    getActiveInstance (fun _ => true) (registerActiveInstance (registerActiveInstance none 0) 1)
      = some 1
    ∧ getActiveInstance (fun _ => true) (unregisterActiveInstance (some 1)) = none := by
  have h := registrySemantics none 0 1 (fun _ => true) (by decide)
  exact ⟨h.1 rfl, h.2.2.1 (some 1)⟩

/-- C8: when a key is present but its string value is non-numeric text, the
parsing indeed does not throw and the output is the zero fallback, but the
functions report `true` (modelled by `some`), not the claimed `false`
success flag: `FCString::Atof`/`Atoi` cannot signal failure and
`GetDeepLinkParameterAsFloat`/`AsInt` return `true` whenever the key was
found. -/
theorem atofSuccessFlagBug :
    getDeepLinkParameterAsFloat ("\x7b\"x\":\"abc\"\x7d".toList) ("x".toList) = some 0
    ∧ getDeepLinkParameterAsInt ("\x7b\"x\":\"abc\"\x7d".toList) ("x".toList) = some 0 := by
  constructor <;> decide

/-- C9: the missing-key half of the claim holds (with `z` absent the vector
extraction reports `none`), but the only-if direction fails: with all three
keys present and non-numeric values the code reports success with the zero
vector instead of the claimed `none`, because each float extraction
reports success whenever its key is present. -/
theorem vectorPartialSuccessBug :
    getDeepLinkParameterAsVector ("\x7b\"x\":\"a\",\"y\":\"b\",\"z\":\"c\"\x7d".toList)
      = some (0, 0, 0)
    ∧ getDeepLinkParameterAsVector ("\x7b\"x\":\"1\",\"y\":\"2\"\x7d".toList) = none := by
  constructor <;> decide

/-- C10: `CloseChromeCustomTab` resets the session state (open flag, URL,
registration) exactly on the branch where the platform close method was
found and invoked; every failure branch (no JNI environment, class or
method not found, non-Android build) leaves the state unchanged. -/
theorem closeTabAtomicity (outcome : CloseOutcome) (st : GState)
    (hfail : outcome ≠ CloseOutcome.invoked) :
    closeChromeCustomTab outcome st = st
    ∧ closeChromeCustomTab CloseOutcome.invoked st
      = { st with bIsCustomTabOpen := false, currentURL := [], registry := none } := by
  constructor
  · cases outcome <;> first | rfl | exact absurd rfl hfail
  · rfl

/-- C10 witness: the close-atomicity theorem applied to the
method-not-found branch on an open session. -/
theorem closeTabAtomicityWitness :
    closeChromeCustomTab CloseOutcome.methodNotFound ⟨true, ['u'], [], some 0⟩
      = ⟨true, ['u'], [], some 0⟩
    ∧ closeChromeCustomTab CloseOutcome.invoked ⟨true, ['u'], [], some 0⟩
      = ⟨false, [], [], none⟩ := by
  have h := closeTabAtomicity CloseOutcome.methodNotFound ⟨true, ['u'], [], some 0⟩ (by decide)
  exact ⟨h.1, h.2⟩

/-- Any navigation event other than the literal `"TabClosed"` preserves an
open session: the `"NavigationStarted"` branch requires the tab to be
closed, and no other branch touches the open flag. -/
theorem hnavKeepsOpen (selfId : Nat) (st : GState) (event url : Str)
    (hopen : st.bIsCustomTabOpen = true)
    (hne : event ≠ ['T', 'a', 'b', 'C', 'l', 'o', 's', 'e', 'd']) :
    (handleNavigationEvent selfId st event url).bIsCustomTabOpen = true := by
  unfold handleNavigationEvent
  by_cases hu : url = [] <;>
    simp only [hu, if_true, if_false, reduceIte] <;>
    split_ifs with h1 h2 <;>
    simp_all [onCustomTabOpened, onCustomTabClosed]

/-- C3: from any state with the tab open, `TabHidden` leaves it open, a
following `TabShown` leaves it open, every event other than the literal
`"TabClosed"` leaves it open, and `TabClosed` closes it, clears the
current URL and unregisters the active instance. -/
theorem tabLifecycleInvariant (selfId : Nat) (st : GState)
    (hopen : st.bIsCustomTabOpen = true) :
    (∀ url, (handleNavigationEvent selfId st ("TabHidden".toList) url).bIsCustomTabOpen = true)
    ∧ (∀ url url2,
        (handleNavigationEvent selfId
          (handleNavigationEvent selfId st ("TabHidden".toList) url)
          ("TabShown".toList) url2).bIsCustomTabOpen = true)
    ∧ (∀ event url, event ≠ ("TabClosed".toList) →
        (handleNavigationEvent selfId st event url).bIsCustomTabOpen = true)
    ∧ (∀ url,
        (handleNavigationEvent selfId st ("TabClosed".toList) url).bIsCustomTabOpen = false
        ∧ (handleNavigationEvent selfId st ("TabClosed".toList) url).currentURL = []
        ∧ (handleNavigationEvent selfId st ("TabClosed".toList) url).registry = none) := by
  refine ⟨?_, ?_, ?_, ?_⟩
  · intro url
    exact hnavKeepsOpen selfId st _ url hopen (by decide)
  · intro url url2
    have h1 := hnavKeepsOpen selfId st ("TabHidden".toList) url hopen (by decide)
    exact hnavKeepsOpen selfId _ ("TabShown".toList) url2 h1 (by decide)
  · intro event url hne
    exact hnavKeepsOpen selfId st event url hopen hne
  · intro url
    unfold handleNavigationEvent
    by_cases hu : url = [] <;>
      simp [hu, onCustomTabClosed, unregisterActiveInstance]

/-- C3 witness: the lifecycle theorem applied to a concrete open session. -/
theorem tabLifecycleWitness :
    (handleNavigationEvent 0 ⟨true, ['u'], [], some 0⟩ ("TabHidden".toList) []).bIsCustomTabOpen
      = true
    ∧ (handleNavigationEvent 0 ⟨true, ['u'], [], some 0⟩
        ("TabClosed".toList) []).bIsCustomTabOpen = false := by
  have h := tabLifecycleInvariant 0 ⟨true, ['u'], [], some 0⟩ rfl
  exact ⟨h.1 [], (h.2.2.2 []).1⟩

/-- C6 counterexample: a fresh channel request whose five consecutive
attempts are all rejected stops retrying and clears the pending origin,
but emits no host-directed notification whatsoever — in particular no
failure report reaches the host observer (the code only writes `Log.e`),
contrary to the claim. -/
theorem retryExhaustionCex :
    (exhaustRun ⟨true, false, none, none, 0, 0⟩ ("a".toList)).1.pendingRetryOrigin = none
    ∧ countAttempts (exhaustRun ⟨true, false, none, none, 0, 0⟩ ("a".toList)).2 = 5
    ∧ hostNotifs (exhaustRun ⟨true, false, none, none, 0, 0⟩ ("a".toList)).2 = [] := by
  refine ⟨?_, ?_, ?_⟩ <;> decide

/-- C6 as amended: starting from a fresh `requestPostMessageChannel` whose
transport attempt is rejected 5 consecutive times, exactly 5 transport
attempts happen, the loop stops (no sixth retry stays scheduled), the
pending retry origin is cleared and the failure is logged locally (no host
observer notification exists for it); and once `onMessageChannelReady`
arrives, `messageChannelReady` is true and any still-scheduled retry fires
as a no-op (no transport attempt). -/
theorem retryExhaustionAmended (st : RetryState) (origin : Str)
    (hs : st.sessionAvailable = true) (ho : origin ≠ []) :
    (requestPostMessageChannelM st origin false).1 = true
    ∧ (exhaustRun st origin).1.postMessageRetryCount = 5
    ∧ (exhaustRun st origin).1.pendingRetryOrigin = none
    ∧ (exhaustRun st origin).1.scheduledRetries = st.scheduledRetries
    ∧ countAttempts (exhaustRun st origin).2 = 5
    ∧ JOut.logExhausted ∈ (exhaustRun st origin).2
    ∧ hostNotifs (exhaustRun st origin).2 = []
    ∧ (∀ r, retryFires (exhaustRun st origin).1 r
        = ({ (exhaustRun st origin).1 with
             scheduledRetries := (exhaustRun st origin).1.scheduledRetries - 1 }, []))
    ∧ (∀ st2, (onMessageChannelReadyM st2).1.messageChannelReady = true
        ∧ ∀ r, retryFires (onMessageChannelReadyM st2).1 r
            = ({ (onMessageChannelReadyM st2).1 with
                 scheduledRetries := (onMessageChannelReadyM st2).1.scheduledRetries - 1 }, [])) := by
  refine ⟨?_, ?_, ?_, ?_, ?_, ?_, ?_, ?_, ?_⟩
  · simp [requestPostMessageChannelM, hs, ho]
  · simp [exhaustRun, requestPostMessageChannelM, attemptPMCR, retryFires, fireN,
      maxPostMessageRetries, hs, ho]
  · simp [exhaustRun, requestPostMessageChannelM, attemptPMCR, retryFires, fireN,
      maxPostMessageRetries, hs, ho]
  · simp [exhaustRun, requestPostMessageChannelM, attemptPMCR, retryFires, fireN,
      maxPostMessageRetries, hs, ho]
  · simp [exhaustRun, requestPostMessageChannelM, attemptPMCR, retryFires, fireN,
      maxPostMessageRetries, countAttempts, hs, ho]
  · simp [exhaustRun, requestPostMessageChannelM, attemptPMCR, retryFires, fireN,
      maxPostMessageRetries, hs, ho]
  · simp [exhaustRun, requestPostMessageChannelM, attemptPMCR, retryFires, fireN,
      maxPostMessageRetries, hostNotifs, isHostNotification, hs, ho]
  · intro r
    simp [exhaustRun, requestPostMessageChannelM, attemptPMCR, retryFires, fireN,
      maxPostMessageRetries, hs, ho]
  · intro st2
    refine ⟨rfl, ?_⟩
    intro r
    simp [onMessageChannelReadyM, retryFires]

/-- C6 witness: the amended retry-exhaustion theorem applied to a session
with three unrelated scheduled callbacks outstanding. -/
theorem retryExhaustionWitness :
    (exhaustRun ⟨true, false, none, none, 0, 3⟩ ("o".toList)).1.scheduledRetries = 3
    ∧ JOut.logExhausted ∈ (exhaustRun ⟨true, false, none, none, 0, 3⟩ ("o".toList)).2 := by
  have h := retryExhaustionAmended ⟨true, false, none, none, 0, 3⟩ ("o".toList) rfl (by decide)
  exact ⟨h.2.2.2.1, h.2.2.2.2.2.1⟩

/-- C7 counterexample: request the channel for origin `a` (transport
rejects, a retry is scheduled), then request it for origin `b` (transport
rejects again); when the retry scheduled on behalf of `a` fires, it is not
a no-op: it performs a transport attempt — for the current origin `b` —
and increments the shared attempt counter to 2, consuming one of `b`'s
five attempts, contrary to the claim. -/
theorem retrySupersessionCex :
    (retryFires
      ((requestPostMessageChannelM
        ((requestPostMessageChannelM ⟨true, false, none, none, 0, 0⟩ ['a'] false).2.1)
        ['b'] false).2.1)
      false).2 = [JOut.transportAttempt ['b']]
    ∧ (retryFires
        ((requestPostMessageChannelM
          ((requestPostMessageChannelM ⟨true, false, none, none, 0, 0⟩ ['a'] false).2.1)
          ['b'] false).2.1)
        false).1.postMessageRetryCount = 2 := by
  constructor <;> decide

/-- C7 as amended: a scheduled retry that fires while the channel is not
ready and some origin is pending always attempts the *currently* pending
origin (never the origin it was scheduled for, if that was superseded) and
increments the shared attempt counter, thereby consuming an attempt of the
superseding request; it is a no-op (no transport attempt) only when the
channel became ready or no origin is pending any more. -/
theorem retrySupersessionAmended (st : RetryState) (b : Str) (r : Bool)
    (hready : st.messageChannelReady = false)
    (hpend : st.pendingRetryOrigin = some b)
    (hs : st.sessionAvailable = true) :
    (retryFires st r).2.head? = some (JOut.transportAttempt b)
    ∧ (∀ o, JOut.transportAttempt o ∈ (retryFires st r).2 → o = b)
    ∧ (retryFires st r).1.postMessageRetryCount = st.postMessageRetryCount + 1
    ∧ (∀ st2 r2, st2.pendingRetryOrigin = none → (retryFires st2 r2).2 = [])
    ∧ (∀ st2 r2, st2.messageChannelReady = true → (retryFires st2 r2).2 = []) := by
  refine ⟨?_, ?_, ?_, ?_, ?_⟩
  · simp only [retryFires, hready, hpend, attemptPMCR, hs]
    split_ifs <;> simp_all
  · intro o ho
    simp only [retryFires, hready, hpend, attemptPMCR, hs] at ho
    split_ifs at ho <;> simp_all
  · simp only [retryFires, hready, hpend, attemptPMCR, hs]
    split_ifs <;> simp_all
  · intro st2 r2 hp2
    simp only [retryFires, hp2]
    split_ifs <;> simp
  · intro st2 r2 hr2
    simp [retryFires, hr2]

/-- C7 witness: the amended supersession theorem applied to a state in
which origin `b` is pending with one prior attempt and one scheduled
callback. -/
theorem retrySupersessionWitness :
    (retryFires ⟨true, false, some ['b'], some ['b'], 1, 1⟩ false).2.head?
      = some (JOut.transportAttempt ['b'])
    ∧ (retryFires ⟨true, false, some ['b'], some ['b'], 1, 1⟩ false).1.postMessageRetryCount
      = 2 := by
  have h := retrySupersessionAmended ⟨true, false, some ['b'], some ['b'], 1, 1⟩ ['b'] false
    rfl rfl rfl
  exact ⟨h.1, h.2.2.1⟩

-- ===========================================================================
-- C1: round-trip of the query-string codec
-- ===========================================================================

/-- The percent-decoded form of a value (the decoding is total under
`GoodVal` below). -/
def decodedVal (v : Str) : Str := (urlDecodeJava v).getD []

/-- The query-string text of one `key=value` pair. -/
def pairText (p : Str × Str) : Str := p.1 ++ '=' :: p.2

/-- The query string assembled from a pair list, joined with `&`. -/
def queryOfPairs (ps : List (Str × Str)) : Str :=
  List.intercalate ['&'] (ps.map pairText)

/-- The JSON member text `"key":"decodedValue"` of one pair. -/
def entryText (p : Str × Str) : Str := entryStr p.1 (decodedVal p.2)

/-- Comma-prefixed member texts, as emitted for the pairs at positions
`1, 2, …` of the split array. -/
def commaEntries : List (Str × Str) → Str
  | [] => []
  | p :: rest => ',' :: (entryText p ++ commaEntries rest)

/-- The object body emitted for a pair list (first member without comma). -/
def bodyText : List (Str × Str) → Str
  | [] => []
  | p :: rest => entryText p ++ commaEntries rest

/-- Side conditions on a key under which the naive JSON embedding is
invertible: nonempty (so `GetDeepLinkParameter` accepts it), no `&` or `=`
(so the query splits back into the same pairs) and no `"` or `\` (so the
raw embedding into the JSON text parses back verbatim). -/
def GoodKey (k : Str) : Prop :=
  k ≠ [] ∧ ∀ c ∈ k, c ≠ '&' ∧ c ≠ '=' ∧ c ≠ '"' ∧ c ≠ '\\'

/-- Side conditions on a value: no `&` (so the query splits back into the
same pairs), the percent-decoding succeeds (well-formed escapes), and the
decoded text contains no `"` or `\` (so its raw embedding into the JSON
text parses back verbatim). -/
def GoodVal (v : Str) : Prop :=
  (∀ c ∈ v, c ≠ '&') ∧ (urlDecodeJava v).isSome = true
  ∧ ∀ c ∈ (urlDecodeJava v).getD [], c ≠ '"' ∧ c ≠ '\\'

/-- A pair text is never empty (it contains at least the `=`). -/
theorem pairText_ne_nil (p : Str × Str) : pairText p ≠ [] := by
  simp [pairText]

/-- `dropTrailingEmpties` is the identity on lists of nonempty segments. -/
theorem dropTrailingEmpties_id (parts : List Str) (h : ∀ p ∈ parts, p ≠ []) :
    dropTrailingEmpties parts = parts := by
  induction parts with
  | nil => rfl
  | cons s rest ih =>
    have hs : s ≠ [] := h s (by simp)
    have ih2 := ih (fun p hp => h p (by simp [hp]))
    unfold dropTrailingEmpties
    rw [ih2]
    cases rest with
    | nil => simp [hs]
    | cons r rs => rfl

/-- `List.intercalate` on at least two chunks exposes the first separator. -/
theorem intercalate_cons_cons (sep a b : Str) (tl : List Str) :
    List.intercalate sep (a :: b :: tl) = a ++ sep ++ List.intercalate sep (b :: tl) := by
  simp [List.intercalate, List.intersperse_cons_cons]

/-- A query assembled from a nonempty pair list is nonempty. -/
theorem queryOfPairs_ne_nil (p : Str × Str) (tl : List (Str × Str)) :
    queryOfPairs (p :: tl) ≠ [] := by
  cases tl with
  | nil => simpa [queryOfPairs, List.intercalate] using pairText_ne_nil p
  | cons q tl2 =>
    simp only [queryOfPairs, List.map_cons, intercalate_cons_cons]
    simp [pairText]

/-- Splitting the assembled query on `&` recovers exactly the pair texts. -/
theorem javaSplit_queryOfPairs (ps : List (Str × Str)) (hne : ps ≠ [])
    (hk : ∀ p ∈ ps, GoodKey p.1) (hv : ∀ p ∈ ps, GoodVal p.2) :
    javaSplit '&' (queryOfPairs ps) = ps.map pairText := by
  obtain ⟨p, tl, rfl⟩ : ∃ p tl, ps = p :: tl := by
    cases ps with
    | nil => exact absurd rfl hne
    | cons p tl => exact ⟨p, tl, rfl⟩
  have hamp : ∀ l ∈ (p :: tl).map pairText, '&' ∉ l := by
    intro l hl
    obtain ⟨q, hq, rfl⟩ := List.mem_map.mp hl
    intro hc
    rcases List.mem_append.mp ((by simpa [pairText] using hc) : '&' ∈ q.1 ++ '=' :: q.2) with h1 | h2
    · exact ((hk q hq).2 '&' h1).1 rfl
    · rcases List.mem_cons.mp h2 with h3 | h4
      · exact absurd h3.symm (by decide)
      · exact (hv q hq).1 '&' h4 rfl
  have hsplit : (queryOfPairs (p :: tl)).splitOn '&' = (p :: tl).map pairText :=
    List.splitOn_intercalate ((p :: tl).map pairText) '&' hamp (by simp)
  unfold javaSplit
  rw [if_neg (queryOfPairs_ne_nil p tl), hsplit]
  exact dropTrailingEmpties_id _ (by
    intro l hl
    obtain ⟨q, _, rfl⟩ := List.mem_map.mp hl
    exact pairText_ne_nil q)

/-- Splitting `key=value` at the first `=` recovers the pair when the key
contains no `=`. -/
theorem splitFirstEq_append (k v : Str) (h : ∀ c ∈ k, c ≠ '=') :
    splitFirstEq (k ++ '=' :: v) = some (k, v) := by
  induction k with
  | nil => simp [splitFirstEq]
  | cons c cs ih =>
    have hc : c ≠ '=' := h c (by simp)
    simp [splitFirstEq, hc, ih (fun x hx => h x (by simp [hx]))]

/-- One kept pair of the `queryStringToJson` loop. -/
theorem qsjLoop_cons_eq (pt : Str) (rest : List Str) (i : Nat) (k v d rj : Str)
    (h1 : splitFirstEq pt = some (k, v)) (h2 : urlDecodeJava v = some d)
    (h3 : qsjLoop rest (i + 1) = some rj) :
    qsjLoop (pt :: rest) i = some ((if 0 < i then [','] else []) ++ entryStr k d ++ rj) := by
  simp [qsjLoop, h1, h2, h3]

/-- The loop on positions `≥ 1`: every kept pair is comma-prefixed. -/
theorem qsjLoop_pos (ps : List (Str × Str)) (i : Nat) (hi : 0 < i)
    (hk : ∀ p ∈ ps, GoodKey p.1) (hv : ∀ p ∈ ps, GoodVal p.2) :
    qsjLoop (ps.map pairText) i = some (commaEntries ps) := by
  induction ps generalizing i with
  | nil => rfl
  | cons p rest ih =>
    have hkp := hk p (by simp)
    have hvp := hv p (by simp)
    obtain ⟨d, hd⟩ := Option.isSome_iff_exists.mp hvp.2.1
    have hrec := ih (i + 1) (Nat.succ_pos i) (fun q hq => hk q (by simp [hq]))
      (fun q hq => hv q (by simp [hq]))
    rw [List.map_cons,
      qsjLoop_cons_eq (pairText p) (rest.map pairText) i p.1 p.2 d (commaEntries rest)
        (splitFirstEq_append p.1 p.2 (fun c hc => (hkp.2 c hc).2.1)) hd hrec]
    simp [commaEntries, entryText, decodedVal, hd, if_pos hi]

/-- `queryStringToJson` on a well-formed pair list produces exactly the
naive object literal. -/
theorem queryStringToJson_pairs (ps : List (Str × Str)) (hne : ps ≠ [])
    (hk : ∀ p ∈ ps, GoodKey p.1) (hv : ∀ p ∈ ps, GoodVal p.2) :
    queryStringToJson (queryOfPairs ps) = some ('{' :: bodyText ps ++ ['}']) := by
  obtain ⟨p, tl, rfl⟩ : ∃ p tl, ps = p :: tl := by
    cases ps with
    | nil => exact absurd rfl hne
    | cons p tl => exact ⟨p, tl, rfl⟩
  have hkp := hk p (by simp)
  have hvp := hv p (by simp)
  obtain ⟨d, hd⟩ := Option.isSome_iff_exists.mp hvp.2.1
  have hrec := qsjLoop_pos tl 1 Nat.one_pos (fun q hq => hk q (by simp [hq]))
    (fun q hq => hv q (by simp [hq]))
  unfold queryStringToJson
  rw [if_neg (queryOfPairs_ne_nil p tl), javaSplit_queryOfPairs _ hne hk hv, List.map_cons,
    qsjLoop_cons_eq (pairText p) (tl.map pairText) 0 p.1 p.2 d (commaEntries tl)
      (splitFirstEq_append p.1 p.2 (fun c hc => (hkp.2 c hc).2.1)) hd
      hrec]
  simp [bodyText, entryText, decodedVal, hd]

/-- `skipWs` does not consume a non-whitespace head. -/
theorem skipWs_cons (c : Char) (rest : Str) (h : isWsChar c = false) :
    skipWs (c :: rest) = c :: rest := by
  simp [skipWs, List.dropWhile_cons, h]

/-- Reading a string body whose contents contain no quote or backslash
stops exactly at the closing quote. -/
theorem parseStringBody_append (s rest : Str) (h : ∀ c ∈ s, c ≠ '"' ∧ c ≠ '\\') :
    parseStringBody (s ++ '"' :: rest) = some (s, rest) := by
  induction s with
  | nil =>
    rw [List.nil_append, parseStringBody.eq_def]
    try dsimp only
    rw [if_pos rfl]
  | cons c cs ih =>
    have hc := h c (by simp)
    rw [List.cons_append, parseStringBody.eq_def]
    try dsimp only
    rw [if_neg hc.1, if_neg hc.2, ih (fun x hx => h x (by simp [hx]))]

/-- Reading a scalar starting with a quote yields the string value. -/
theorem parseScalar_jstr (s rest : Str) (h : ∀ c ∈ s, c ≠ '"' ∧ c ≠ '\\') :
    parseScalar ('"' :: (s ++ '"' :: rest)) = some (JsonVal.jstr s, rest) := by
  have hq : parseScalar ('"' :: (s ++ '"' :: rest))
      = (match parseStringBody (s ++ '"' :: rest) with
         | some (sv, r) => some (JsonVal.jstr sv, r)
         | none => none) := rfl
  rw [hq, parseStringBody_append s rest h]

/-- Each comma-prefixed entry contributes at least one character. -/
theorem commaEntries_length (ps : List (Str × Str)) :
    ps.length ≤ (commaEntries ps).length := by
  induction ps with
  | nil => simp [commaEntries]
  | cons p rest ih =>
    simp only [commaEntries, List.length_cons, List.length_append]
    omega

/-- The object body is at least as long as the pair list. -/
theorem bodyText_length (ps : List (Str × Str)) :
    ps.length ≤ (bodyText ps).length := by
  cases ps with
  | nil => simp [bodyText]
  | cons p rest =>
    have h1 := commaEntries_length rest
    have h2 : 1 ≤ (entryText p).length := by
      simp [entryText, entryStr]
    simp only [bodyText, List.length_cons, List.length_append]
    omega

/-- The member parser consumes exactly the emitted members of a well-formed
pair list and stops after the closing brace. -/
theorem parsePairsAux_append (ps : List (Str × Str)) (rest : Str) (fuel : Nat)
    (hne : ps ≠ []) (hfuel : ps.length ≤ fuel)
    (hk : ∀ p ∈ ps, ∀ c ∈ p.1, c ≠ '"' ∧ c ≠ '\\')
    (hv : ∀ p ∈ ps, ∀ c ∈ decodedVal p.2, c ≠ '"' ∧ c ≠ '\\') :
    parsePairsAux fuel (bodyText ps ++ '}' :: rest)
      = some (ps.map (fun p => (p.1, JsonVal.jstr (decodedVal p.2))), rest) := by
  induction ps generalizing fuel rest with
  | nil => exact absurd rfl hne
  | cons p tail ih =>
    cases fuel with
    | zero => simp at hfuel
    | succ f =>
      have hkp := hk p (by simp)
      have hvp := hv p (by simp)
      have hbody : bodyText (p :: tail) ++ '}' :: rest
          = '"' :: (p.1 ++ '"' :: ':' :: '"' :: (decodedVal p.2
              ++ '"' :: (commaEntries tail ++ '}' :: rest))) := by
        simp [bodyText, entryText, entryStr]
      rw [hbody, parsePairsAux.eq_def]
      try dsimp only
      rw [skipWs_cons '"' _ (by decide)]
      try dsimp only
      rw [if_pos rfl]
      rw [parseStringBody_append p.1 _ hkp]
      try dsimp only
      rw [skipWs_cons ':' _ (by decide)]
      try dsimp only
      rw [if_pos rfl]
      rw [skipWs_cons '"' _ (by decide)]
      rw [parseScalar_jstr (decodedVal p.2) _ hvp]
      try dsimp only
      cases tail with
      | nil =>
        rw [show commaEntries ([] : List (Str × Str)) ++ '}' :: rest = '}' :: rest by
          simp [commaEntries]]
        rw [skipWs_cons '}' _ (by decide)]
        try dsimp only
        rw [if_neg (by decide), if_pos rfl]
        try dsimp only
        rfl
      | cons q more =>
        rw [show commaEntries (q :: more) ++ '}' :: rest
            = ',' :: (bodyText (q :: more) ++ '}' :: rest) by
          simp [commaEntries, bodyText]]
        rw [skipWs_cons ',' _ (by decide)]
        try dsimp only
        rw [if_pos rfl]
        rw [ih rest f (by simp) (by simpa using hfuel)
          (fun x hx => hk x (by simp [hx])) (fun x hx => hv x (by simp [hx]))]
        try dsimp only
        rfl

/-- Deserializing the emitted object literal of a well-formed pair list
yields exactly its members. -/
theorem jsonParseObject_pairs (ps : List (Str × Str)) (hne : ps ≠ [])
    (hk : ∀ p ∈ ps, ∀ c ∈ p.1, c ≠ '"' ∧ c ≠ '\\')
    (hv : ∀ p ∈ ps, ∀ c ∈ decodedVal p.2, c ≠ '"' ∧ c ≠ '\\') :
    jsonParseObject ('{' :: bodyText ps ++ ['}'])
      = some (ps.map (fun p => (p.1, JsonVal.jstr (decodedVal p.2)))) := by
  obtain ⟨p, tl, rfl⟩ : ∃ p tl, ps = p :: tl := by
    cases ps with
    | nil => exact absurd rfl hne
    | cons p tl => exact ⟨p, tl, rfl⟩
  have hbody : bodyText (p :: tl) ++ ['}']
      = '"' :: (p.1 ++ '"' :: ':' :: '"' :: (decodedVal p.2
          ++ '"' :: (commaEntries tl ++ ['}']))) := by
    simp [bodyText, entryText, entryStr]
  have hws : skipWs (bodyText (p :: tl) ++ ['}']) = bodyText (p :: tl) ++ ['}'] := by
    rw [hbody]
    exact skipWs_cons '"' _ (by decide)
  have hlen : (p :: tl).length
      ≤ ('"' :: (p.1 ++ '"' :: ':' :: '"' :: (decodedVal p.2
          ++ '"' :: (commaEntries tl ++ ['}'])))).length + 1 := by
    have h1 := bodyText_length (p :: tl)
    have h2 := congrArg List.length hbody
    simp only [List.length_append, List.length_cons, List.length_nil] at h1 h2 ⊢
    omega
  have hpp := parsePairsAux_append (p :: tl) []
    (('"' :: (p.1 ++ '"' :: ':' :: '"' :: (decodedVal p.2
        ++ '"' :: (commaEntries tl ++ ['}'])))).length + 1)
    (by simp) (by simpa using hlen) hk hv
  rw [hbody] at hpp
  unfold jsonParseObject
  rw [List.cons_append]
  rw [skipWs_cons '{' _ (by decide)]
  try dsimp only
  rw [if_pos rfl, hws, hbody]
  try dsimp only
  rw [if_neg (by decide : ¬('"' = '}'))]
  rw [hpp]
  try dsimp only
  rw [show skipWs ([] : Str) = [] from rfl]
  rw [if_pos rfl]

/-- Folding the member list never changes the accumulator when no key
matches (case-insensitively). -/
theorem getField_skip (ms : List (Str × JsonVal)) (acc : Option JsonVal) (k : Str)
    (h : ∀ p ∈ ms, foldCase p.1 ≠ foldCase k) :
    ms.foldl (fun acc kv => if foldCase kv.1 = foldCase k then some kv.2 else acc) acc
      = acc := by
  induction ms generalizing acc with
  | nil => rfl
  | cons kv tail ih =>
    have hkv := h kv (by simp)
    simp only [List.foldl_cons, if_neg hkv]
    exact ih acc (fun p hp => h p (by simp [hp]))

/-- With keys pairwise distinct up to case folding, field lookup returns
the member's value. -/
theorem getField_mem (ms : List (Str × JsonVal)) (k : Str) (v : JsonVal)
    (hmem : (k, v) ∈ ms) (hnd : (ms.map (fun p => foldCase p.1)).Nodup) :
    getField ms k = some v := by
  induction ms with
  | nil => simp at hmem
  | cons kv tail ih =>
    rw [List.map_cons] at hnd
    have hnd2 := List.nodup_cons.mp hnd
    rcases List.mem_cons.mp hmem with heq | htail
    · have hk1 : foldCase kv.1 = foldCase k := by rw [← heq]
      have hv1 : kv.2 = v := by rw [← heq]
      have hnotin : ∀ p ∈ tail, foldCase p.1 ≠ foldCase k := by
        intro p hp hpk
        apply hnd2.1
        rw [hk1, ← hpk]
        exact List.mem_map_of_mem (fun p => foldCase p.1) hp
      unfold getField
      rw [List.foldl_cons, if_pos hk1, getField_skip tail _ k hnotin, hv1]
    · have hne : foldCase kv.1 ≠ foldCase k := by
        intro hpk
        apply hnd2.1
        rw [hpk]
        exact List.mem_map_of_mem (fun p => foldCase p.1) htail
      unfold getField
      rw [List.foldl_cons, if_neg hne]
      exact ih htail hnd2.2

/-- `GoodKey` is decidable (used to instantiate the round-trip theorem on
concrete inputs). -/
instance (k : Str) : Decidable (GoodKey k) := by
  unfold GoodKey
  infer_instance

/-- `GoodVal` is decidable (used to instantiate the round-trip theorem on
concrete inputs). -/
instance (v : Str) : Decidable (GoodVal v) := by
  unfold GoodVal
  infer_instance

/-- C1 counterexample: the query `a=%22` is well-formed in the claim's sense
(one `k=v` pair, a valid percent-encoded UTF-8 value), yet the value
decodes to a double quote, the naive embedding emits the invalid literal
`{"a":"""}`, deserialization fails, and extracting key `a` returns nothing
instead of the decoded value. -/
theorem queryJsonRoundtripCex :
    urlDecodeJava ("%22".toList) = some ['"']
    ∧ queryStringToJson ("a=%22".toList) = some ("\x7b\"a\":\"\"\"\x7d".toList)
    ∧ getDeepLinkParameter ("\x7b\"a\":\"\"\"\x7d".toList) ("a".toList) = none := by
  refine ⟨?_, ?_, ?_⟩ <;> decide

/-- C1 as amended: the round-trip holds for every pair list whose keys are
pairwise distinct even ignoring ASCII case (the engine JSON object is
keyed case-insensitively, so case-variant keys collapse to the last one),
once the side conditions forced by the naive JSON embedding are added —
keys nonempty and free of `&`, `=`, `"`, `\`; values free of `&`, with
well-formed percent-escapes, whose decoded text is free of `"` and `\`.
Then encoding the assembled query and extracting any original key returns
exactly the percent-decoded original value. -/
theorem queryJsonRoundtripAmended (ps : List (Str × Str))
    (hk : ∀ p ∈ ps, GoodKey p.1) (hv : ∀ p ∈ ps, GoodVal p.2)
    (hnd : (ps.map (fun p => foldCase p.1)).Nodup) :
    ∀ p ∈ ps, ∃ j, queryStringToJson (queryOfPairs ps) = some j
      ∧ getDeepLinkParameter j p.1 = some (decodedVal p.2) := by
  intro p hp
  have hne : ps ≠ [] := by
    intro h
    rw [h] at hp
    simp at hp
  refine ⟨'{' :: bodyText ps ++ ['}'], queryStringToJson_pairs ps hne hk hv, ?_⟩
  have hkp := hk p hp
  unfold getDeepLinkParameter
  rw [if_neg (by
    push_neg
    exact ⟨by simp, hkp.1⟩)]
  rw [jsonParseObject_pairs ps hne
    (fun q hq c hc => ⟨((hk q hq).2 c hc).2.2.1, ((hk q hq).2 c hc).2.2.2⟩)
    (fun q hq c hc => (hv q hq).2.2 c hc)]
  try dsimp only
  rw [getField_mem _ p.1 (JsonVal.jstr (decodedVal p.2))
    (List.mem_map_of_mem (fun q => (q.1, JsonVal.jstr (decodedVal q.2))) hp)
    (by
      rw [show (ps.map (fun p => (p.1, JsonVal.jstr (decodedVal p.2)))).map
            (fun q => foldCase q.1)
          = ps.map (fun p => foldCase p.1) by simp]
      exact hnd)]
  rfl

/-- C1 witness: the amended round-trip theorem applied to the two-pair
query `a=x%20y&b=2`, extracting key `a`. -/
theorem queryJsonRoundtripWitness :
    queryStringToJson ("a=x%20y&b=2".toList)
      = some ("\x7b\"a\":\"x y\",\"b\":\"2\"\x7d".toList)
    ∧ getDeepLinkParameter ("\x7b\"a\":\"x y\",\"b\":\"2\"\x7d".toList) ("a".toList)
      = some ("x y".toList) := by
  have h := queryJsonRoundtripAmended
    [(("a".toList), ("x%20y".toList)), (("b".toList), ("2".toList))]
    (by decide) (by decide) (by decide)
    (("a".toList), ("x%20y".toList)) (by decide)
  obtain ⟨j, hj1, hj2⟩ := h
  have hq : queryOfPairs [(("a".toList), ("x%20y".toList)), (("b".toList), ("2".toList))]
      = ("a=x%20y&b=2".toList) := by decide
  rw [hq] at hj1
  have heval : queryStringToJson ("a=x%20y&b=2".toList)
      = some ("\x7b\"a\":\"x y\",\"b\":\"2\"\x7d".toList) := by decide
  have hjeq : j = ("\x7b\"a\":\"x y\",\"b\":\"2\"\x7d".toList) := by
    rw [heval] at hj1
    exact (Option.some_inj.mp hj1.symm)
  rw [hjeq] at hj2
  have hdec : decodedVal ("x%20y".toList) = ("x y".toList) := by decide
  rw [hdec] at hj2
  exact ⟨heval, hj2⟩

end ABCT
